import Mathlib

/-!
Shallow embedding of a CouchDB client (`db.py`) and a dataclass-based
object-document marshaller (`orm.py`).

Documents are Python dicts with string keys.  The embedding models them as
ordered association lists with the operations of a Python dict: lookup of
the unique binding, in-place overwrite on assignment (insertion order kept,
new keys appended), `pop`, and `update` (left-to-right assignment of the
other dict's entries).  All dicts produced by Python have pairwise distinct
keys, so the duplicate-key behaviour of the list model is never exercised.

The HTTP transport (a `requests` session talking to CouchDB) is an external
collaborator; it is abstracted as a `Backend`: a state type together with
the three request shapes `Db.put`/`Db.post`/`Db.get` use, each returning an
HTTP status and a parsed JSON body.  `Store` instantiates the backend with
the store semantics the spec describes for the collaborator
(RetrieveById, InsertAssigningId, ConditionalUpsertByIdAndRevision with
conflict-on-stale-write).
-/

/-- JSON-compatible scalar values stored in a document field. -/
inductive Val where
  | str (s : String)
  | int (n : Int)
  | bool (b : Bool)
  | null
  deriving DecidableEq, Repr

/-- A document (or any JSON object body): a Python dict with string keys. -/
abbrev Doc := List (String × Val)

/-- `d.get(k)` / `d[k]`: the value of the unique binding of `k`, if any. -/
def docGet (d : Doc) (k : String) : Option Val :=
  (d.find? (fun p => p.1 == k)).map (·.2)

/-- `d[k] = v`: overwrite in place if `k` is bound, else append (Python
dicts keep insertion order and keep an overwritten key's position). -/
def docSet : Doc → String → Val → Doc
  | [], k, v => [(k, v)]
  | (k', v') :: rest, k, v =>
    if k' == k then (k', v) :: rest else (k', v') :: docSet rest k v

/-- `d.pop(k, None)`: drop the binding of `k` (a no-op when `k` is unbound).
Written as a filter, which agrees with Python's removal of the unique
binding on dicts (whose keys are pairwise distinct). -/
def docErase (d : Doc) (k : String) : Doc :=
  d.filter (fun p => p.1 != k)

/-- `d.update(other)`: assign every binding of `other` into `d`, in order. -/
def docUpdate (d other : Doc) : Doc :=
  other.foldl (fun acc p => docSet acc p.1 p.2) d

/-- Python `f"{v}"` on a scalar, used to build request URLs from `_id`. -/
def pyStr : Val → String
  | .str s => s
  | .int n => toString n
  | .bool true => "True"
  | .bool false => "False"
  | .null => "None"

/-- Python truthiness of a scalar (`not doc.get('_rev', None)` in
`Db.bulk_update`): null, the empty string, zero and `False` are falsy. -/
def pyFalsy : Val → Bool
  | .null => true
  | .str s => s == ""
  | .int n => n == 0
  | .bool b => !b

/-- Truthiness of `d.get(k, None)`: a missing key yields falsy `None`. -/
def pyFalsyOpt : Option Val → Bool
  | none => true
  | some v => pyFalsy v

/-- The transport the client talks to: each field is one request shape used
by `Db.get` / `Db.put` / `Db.post`, returning the HTTP status code and the
parsed JSON body (and, for state-changing requests, the successor state of
the collaborator). -/
structure Backend (σ : Type) where
  httpGetDoc : σ → String → Nat × Doc
  httpPutDoc : σ → String → Doc → σ × Nat × Doc
  httpPost : σ → Doc → σ × Nat × Doc

/-- Outcome of `Db.put` / `Db.post`: the returned document, the returned
`None`, or a raised `KeyError` (reading `'rev'`/`'id'` from a response body
that lacks it). -/
inductive PutRes where
  | ret (d : Doc)
  | absent
  | keyError
  deriving DecidableEq, Repr

/-- `Db.get` (db.py lines 27-37): `None` unless the status is 200, else the
parsed body. -/
def dbGet {σ : Type} (B : Backend σ) (s : σ) (docId : String) : Option Doc :=
  let r := B.httpGetDoc s docId
  if r.1 == 200 then some r.2 else none

/-- `Db.post` (db.py lines 39-53): insert letting the store assign the id;
on 201 the caller's doc is returned updated with the response's `id` and
`rev`, otherwise `None`. -/
def dbPost {σ : Type} (B : Backend σ) (s : σ) (doc : Doc) : σ × PutRes :=
  let r := B.httpPost s doc
  if r.2.1 == 201 then
    match docGet r.2.2 "id", docGet r.2.2 "rev" with
    | some i, some rv => (r.1, .ret (docSet (docSet doc "_id" i) "_rev" rv))
    | _, _ => (r.1, .keyError)
  else (r.1, .absent)

/-- Result of a full `Db.put` run: final collaborator state, the outcome,
and the body of the conflict-retry write when one was issued. -/
structure PutOut (σ : Type) where
  state : σ
  res : PutRes
  retried : Option Doc

/-- `Db.put` (db.py lines 55-84).  No `_id` (or a null one) delegates to
`Db.post`; an explicitly null `_rev` is popped; then one conditional write
is attempted.  On a non-2xx status the current document is fetched: if the
fetch is falsy the call returns `None`, otherwise `current_doc.update(doc)`
is retried once at `current_doc['_id']`.  The final response's `'rev'` is
assigned into the caller's doc without any status check on the retry. -/
def dbPut {σ : Type} (B : Backend σ) (s : σ) (doc : Doc) : PutOut σ :=
  match docGet doc "_id" with
  | none =>
    let r := dbPost B s doc
    ⟨r.1, r.2, none⟩
  | some .null =>
    let r := dbPost B s doc
    ⟨r.1, r.2, none⟩
  | some idv =>
    let doc1 := if docGet doc "_rev" == some .null then docErase doc "_rev" else doc
    let url := pyStr idv
    let w1 := B.httpPutDoc s url doc1
    if w1.2.1 == 200 || w1.2.1 == 201 then
      match docGet w1.2.2 "rev" with
      | some rv => ⟨w1.1, .ret (docSet doc1 "_rev" rv), none⟩
      | none => ⟨w1.1, .keyError, none⟩
    else
      match dbGet B w1.1 url with
      | some current =>
        if current.isEmpty then ⟨w1.1, .absent, none⟩
        else
          let merged := docUpdate current doc1
          match docGet merged "_id" with
          | some mid =>
            let w2 := B.httpPutDoc w1.1 (pyStr mid) merged
            match docGet w2.2.2 "rev" with
            | some rv => ⟨w2.1, .ret (docSet doc1 "_rev" rv), some merged⟩
            | none => ⟨w2.1, .keyError, some merged⟩
          | none => ⟨w1.1, .keyError, some merged⟩
      | none => ⟨w1.1, .absent, none⟩

/-- `Db.find`'s response handling (db.py lines 130-133): `status` is the
HTTP status of the `_find` request and `docsField` the body's `"docs"`
member when present (`result.json().get('docs', [])`).  The request itself
(selector, skip, limit, fields) is an opaque passthrough. -/
def dbFind (status : Nat) (docsField : Option (List Doc)) : List Doc :=
  if status != 200 then [] else docsField.getD []

/-- `Db.bulk_update`'s strip of fresh documents (db.py line 95): the `_rev`
binding is popped from a document whose `_rev` is falsy or missing. -/
def stripNewRev (d : Doc) : Doc :=
  if pyFalsyOpt (docGet d "_rev") then docErase d "_rev" else d

/-- `Db.bulk_update`'s positional assignment (db.py line 99): the i-th
response entry's `id`/`rev` are assigned onto the i-th submitted document.
`none` models the raised `IndexError` (response shorter than the request)
or `KeyError` (entry lacking `id`/`rev`). -/
def bulkAssign : List Doc → List Doc → Option (List Doc)
  | [], _ => some []
  | d :: ds, e :: es =>
    match docGet e "id", docGet e "rev" with
    | some i, some rv =>
      (bulkAssign ds es).map (fun rest => docSet (docSet d "_id" i) "_rev" rv :: rest)
    | _, _ => none
  | _ :: _, [] => none

/-- `Db.bulk_update` (db.py lines 86-100): strip falsy `_rev` markers, send
every document in the single `_bulk_docs` request whose response is `resp`,
then assign the response entries back by position. -/
def bulk_update (resp : List Doc) (docs : List Doc) : Option (List Doc) :=
  bulkAssign (docs.map stripNewRev) resp

/-- One cycle of the `Db.changes` long-poll loop (db.py lines 211-218), at
the collaborator's interface: either the whole cycle succeeds yielding the
parsed documents; or an exception is raised inside the `try` (while parsing
the body or iterating the results) after a prefix of the cycle's documents
was already yielded; or `session.post` itself raises — that call sits
outside the `try`. -/
inductive Poll where
  | ok (docs : List Doc)
  | parseFail (docs : List Doc) (err : String)
  | postRaise (err : String)

/-- How a `Db.changes` run has ended, if it has. -/
inductive RunStatus where
  | running
  | ended
  | raised (err : String)
  deriving DecidableEq, Repr

/-- Observable state of a `Db.changes` consumer: documents yielded so far,
messages logged so far, and whether the generator is still polling. -/
structure ChState where
  out : List Doc
  log : List String
  status : RunStatus
  deriving Repr

/-- The `Db.changes` generator after `n` poll cycles against the cycle
outcomes `polls`.  A caught failure is logged and breaks the `while True`
loop (no reconnect); an uncaught `session.post` failure raises out of the
generator without logging. -/
def changesRun (polls : Nat → Poll) : Nat → ChState
  | 0 => ⟨[], [], .running⟩
  | n + 1 =>
    let st := changesRun polls n
    match st.status with
    | .running =>
      match polls n with
      | .ok ds => ⟨st.out ++ ds, st.log, .running⟩
      | .parseFail ds e => ⟨st.out ++ ds, st.log ++ [e], .ended⟩
      | .postRaise e => ⟨st.out, st.log, .raised e⟩
    | _ => st

/-- Modelled from the spec: the document-store collaborator's state — the
stored documents by identifier, plus counters for fresh revision tokens and
fresh identifiers.  (`spec.md` section 6: RetrieveById, InsertAssigningId,
ConditionalUpsertByIdAndRevision; section 1: revision-tagged documents with
conflict-on-stale-write semantics.) -/
structure Store where
  docs : List (String × Doc)
  nextRev : Nat
  nextId : Nat

/-- The stored document at an identifier, if any. -/
def Store.lookup (st : Store) (docId : String) : Option Doc :=
  (st.docs.find? (fun p => p.1 == docId)).map (·.2)

/-- A fresh opaque revision token. -/
def Store.freshRev (st : Store) : String :=
  toString st.nextRev ++ "-r"

/-- Replace-or-append a stored document at an identifier. -/
def storeSave : List (String × Doc) → String → Doc → List (String × Doc)
  | [], docId, d => [(docId, d)]
  | (i', d') :: rest, docId, d =>
    if i' == docId then (i', d) :: rest else (i', d') :: storeSave rest docId d

/-- Modelled from the spec: ConditionalUpsertByIdAndRevision.  The write is
accepted iff the body's `_rev` matches the stored document's `_rev` (or the
body carries no `_rev` and nothing is stored); acceptance stores the body
under the URL's identifier with a fresh revision and answers 201 with
`id`/`rev` in the body; a stale or missing revision answers 409 with an
error body that carries no `rev`. -/
def Store.httpPut (st : Store) (docId : String) (body : Doc) : Store × Nat × Doc :=
  let ok := match st.lookup docId, docGet body "_rev" with
    | none, none => true
    | some stored, some r => docGet stored "_rev" == some r
    | _, _ => false
  if ok then
    let rv := st.freshRev
    let newDoc := docSet (docSet body "_id" (.str docId)) "_rev" (.str rv)
    (⟨storeSave st.docs docId newDoc, st.nextRev + 1, st.nextId⟩, 201,
      [("ok", .bool true), ("id", .str docId), ("rev", .str rv)])
  else (st, 409, [("error", .str "conflict")])

/-- Modelled from the spec: RetrieveById — 200 with the stored document, or
404 with an error body. -/
def Store.httpGet (st : Store) (docId : String) : Nat × Doc :=
  match st.lookup docId with
  | some d => (200, d)
  | none => (404, [("error", .str "not_found")])

/-- Modelled from the spec: InsertAssigningId — the store assigns a fresh
identifier and initial revision and answers 201 with both in the body. -/
def Store.httpPost (st : Store) (body : Doc) : Store × Nat × Doc :=
  let newId := "uuid-" ++ toString st.nextId
  let rv := st.freshRev
  let newDoc := docSet (docSet body "_id" (.str newId)) "_rev" (.str rv)
  (⟨storeSave st.docs newId newDoc, st.nextRev + 1, st.nextId + 1⟩, 201,
    [("id", .str newId), ("rev", .str rv)])

/-- The client's transport wired to the store model. -/
def couchBackend : Backend Store :=
  ⟨Store.httpGet, Store.httpPut, Store.httpPost⟩

/-- Outcome of `Orm.save`: the returned instance's `_id` and `_rev`, or a
raised exception (a `TypeError` subscripting the `None` returned by a
failed `Db.put`, or a `KeyError` propagating out of `Db.put` itself). -/
inductive SaveRes where
  | saved (docId rev : Val)
  | error
  deriving DecidableEq, Repr

/-- `Orm.save` (orm.py lines 149-156) applied to the serialized instance
document: `doc = db.put(doc)` then
`self._id, self._rev = doc['_id'], doc['_rev']` and `return self`. -/
def ormSave {σ : Type} (B : Backend σ) (s : σ) (doc : Doc) : σ × SaveRes :=
  let out := dbPut B s doc
  match out.res with
  | .ret d =>
    match docGet d "_id", docGet d "_rev" with
    | some i, some r => (out.state, .saved i r)
    | _, _ => (out.state, .error)
  | .absent => (out.state, .error)
  | .keyError => (out.state, .error)

/-- Run-time Python values handled by the marshaller.  `Decimal` and
`datetime` values are modelled by their exact textual representation:
`str` on a Decimal and `isoformat` on a datetime are injective, both
constructors restore the value from that text exactly, and the text is all
the marshaller observes of either. -/
inductive PyVal where
  | vnone
  | vint (n : Int)
  | vfloat (q : Rat)
  | vstr (s : String)
  | vbool (b : Bool)
  | vdec (s : String)
  | vdt (s : String)
  | vlist (xs : List PyVal)
  | vdict (es : List (PyVal × PyVal))
  | vinst (fs : List (String × PyVal))

/-- Exceptions the marshaller raises.  `fieldError name cause` models the
`ValueError` raised at orm.py line 121 — the field's name in the message
and the original exception attached via `from e`. -/
inductive PyErr where
  | typeError (msg : String)
  | valueError (msg : String)
  | fieldError (name : String) (cause : PyErr)
  deriving DecidableEq, Repr

/-- A dataclass field's default: none declared, a declared default value,
or a default-producing function (modelled by the value it produces — the
factories used here, such as `uuid4`, are opaque to the marshaller).
A Python dataclass field never declares both. -/
inductive Dflt where
  | missing
  | dval (v : PyVal)
  | dfactory (v : PyVal)

/-- The closed table of declared field kinds `deserialize_value` dispatches
on (orm.py lines 59-110): primitives, `Optional[T]`, `List[T]`,
`Dict[K, V]`, nested dataclasses, `Decimal`, `datetime`.  A model schema is
the ordered list of (name, default, kind) triples produced by `fields()`. -/
inductive Ty where
  | tInt
  | tFloat
  | tStr
  | tBool
  | tDec
  | tDt
  | tOpt (t : Ty)
  | tList (t : Ty)
  | tDict (kt vt : Ty)
  | tModel (fs : List (String × Dflt × Ty))

mutual

/-- `serialize_value` (orm.py lines 22-34): Decimal to its exact text,
datetime to its ISO text, nested dataclasses to dicts, lists element-wise,
dicts over values only (keys pass through unchanged), all else unchanged. -/
def serialize_value : PyVal → PyVal
  | .vdec s => .vstr s
  | .vdt s => .vstr s
  | .vinst fs => .vdict (serFields fs)
  | .vlist xs => .vlist (serList xs)
  | .vdict es => .vdict (serPairs es)
  | v => v

/-- Element-wise serialization of a list value. -/
def serList : List PyVal → List PyVal
  | [] => []
  | v :: rest => serialize_value v :: serList rest

/-- Serialization of a dict value: values recursed, keys unchanged. -/
def serPairs : List (PyVal × PyVal) → List (PyVal × PyVal)
  | [] => []
  | (k, v) :: rest => (k, serialize_value v) :: serPairs rest

/-- The field loop of `serialize` (orm.py lines 36-41): each declared
field's value, serialized, under the field's name. -/
def serFields : List (String × PyVal) → List (PyVal × PyVal)
  | [] => []
  | (n, v) :: rest => (.vstr n, serialize_value v) :: serFields rest

end

/-- The Python type name used in the marshaller's error messages. -/
def pyTypeName : PyVal → String
  | .vnone => "NoneType"
  | .vint _ => "int"
  | .vfloat _ => "float"
  | .vstr _ => "str"
  | .vbool _ => "bool"
  | .vdec _ => "Decimal"
  | .vdt _ => "datetime"
  | .vlist _ => "list"
  | .vdict _ => "dict"
  | .vinst _ => "object"

/-- Python `int(value)`: identity on ints, bools as 0/1, floats truncated
toward zero, numeric strings parsed (`ValueError` otherwise), `TypeError`
on lists, dicts, datetimes and instances as in Python.  `int(Decimal)` —
which Python truncates — is outside the modelled fragment and is never
reached by the development. -/
def pyInt : PyVal → Except PyErr PyVal
  | .vint n => .ok (.vint n)
  | .vbool b => .ok (.vint (if b then 1 else 0))
  | .vfloat q => .ok (.vint (q.num.tdiv q.den))
  | .vstr s =>
    match s.toInt? with
    | some n => .ok (.vint n)
    | none => .error (.valueError ("invalid literal for int: " ++ s))
  | v => .error (.typeError ("int() argument unsupported: " ++ pyTypeName v))

/-- Python `float(value)` on numeric inputs; numeric strings and Decimals —
which Python also accepts — are outside the modelled fragment and are never
reached by the development. -/
def pyFloat : PyVal → Except PyErr PyVal
  | .vfloat q => .ok (.vfloat q)
  | .vint n => .ok (.vfloat n)
  | .vbool b => .ok (.vfloat (if b then 1 else 0))
  | v => .error (.typeError ("float() argument unsupported: " ++ pyTypeName v))

/-- Python `str(value)`; total.  Only the string case (the identity) is
reached with conforming data; the rendering of the remaining cases
approximates Python's. -/
def pyStrOf : PyVal → PyVal
  | .vstr s => .vstr s
  | .vint n => .vstr (toString n)
  | .vbool true => .vstr "True"
  | .vbool false => .vstr "False"
  | .vdec s => .vstr s
  | .vdt s => .vstr s
  | .vnone => .vstr "None"
  | .vfloat q => .vstr (toString q)
  | v => .vstr (pyTypeName v)

/-- Python `bool(value)`; total truthiness.  Only the bool case (the
identity) is reached with conforming data; Decimal truthiness (false
exactly on zero) is approximated as true — unreached by the development. -/
def pyBool : PyVal → PyVal
  | .vbool b => .vbool b
  | .vint n => .vbool (n != 0)
  | .vfloat q => .vbool (q != 0)
  | .vstr s => .vbool (s != "")
  | .vlist xs => .vbool (!xs.isEmpty)
  | .vdict es => .vbool (!es.isEmpty)
  | .vnone => .vbool false
  | _ => .vbool true

/-- Python `Decimal(value)`: Decimal inputs are reproduced (Python accepts
a Decimal argument and preserves its value), strings reproduce the literal
exactly (literal validity is not modelled: every string reaching this
conversion in the development was produced by `str(Decimal)`), ints and
bools render exactly; lists, dicts, datetimes and instances raise
`TypeError` as in Python.  `Decimal(float)` — the exact binary expansion —
is outside the modelled fragment and is never reached. -/
def pyDecimal : PyVal → Except PyErr PyVal
  | .vdec s => .ok (.vdec s)
  | .vstr s => .ok (.vdec s)
  | .vint n => .ok (.vdec (toString n))
  | .vbool b => .ok (.vdec (if b then "1" else "0"))
  | v => .error (.typeError ("conversion from " ++ pyTypeName v ++ " to Decimal unsupported"))

/-- Python `datetime.fromisoformat(value)`: requires a str — anything else,
including a datetime object, raises `TypeError`; an isoformat-produced
string restores the datetime exactly (string validity is not modelled). -/
def pyFromIso : PyVal → Except PyErr PyVal
  | .vstr s => .ok (.vdt s)
  | v => .error (.typeError ("fromisoformat: argument must be str, not " ++ pyTypeName v))

/-- `field_name in data` / `data[field_name]` (orm.py lines 116-117): the
value under the key equal to the string `name`.  A non-string key never
equals a string in Python, so only `vstr name` keys match. -/
def pyLookup (es : List (PyVal × PyVal)) (name : String) : Option PyVal :=
  (es.find? (fun p => match p.1 with | .vstr s => s == name | _ => false)).map (·.2)

/-- The value assigned to a field absent from the document (orm.py lines
123-129): the declared default if present, else the default factory's
product, else `None` — never a failure. -/
def dfltVal : Dflt → PyVal
  | .missing => .vnone
  | .dval v => v
  | .dfactory v => v

/-- The list comprehension of the `List[T]` branch (orm.py line 80), with
the element conversion abstracted: convert each element, propagating the
first failure. -/
def exList (f : PyVal → Except PyErr PyVal) : List PyVal → Except PyErr (List PyVal)
  | [] => .ok []
  | v :: rest =>
    match f v with
    | .error e => .error e
    | .ok v' =>
      match exList f rest with
      | .error e => .error e
      | .ok rest' => .ok (v' :: rest')

/-- The dict comprehension of the `Dict[K, V]` branch (orm.py line 87),
with the two conversions abstracted: convert each entry's key and then its
value (key before value per item, as in CPython 3.8+), propagating the
first failure. -/
def exPairs (fk fv : PyVal → Except PyErr PyVal) :
    List (PyVal × PyVal) → Except PyErr (List (PyVal × PyVal))
  | [] => .ok []
  | (k, v) :: rest =>
    match fk k with
    | .error e => .error e
    | .ok k' =>
      match fv v with
      | .error e => .error e
      | .ok v' =>
        match exPairs fk fv rest with
        | .error e => .error e
        | .ok rest' => .ok ((k', v') :: rest')

mutual

/-- `deserialize_value` (orm.py lines 59-110).  A null raw value yields
null for every kind (the first check in the Python code); `Optional[T]`
unwraps to `T`; `List[T]` requires a list and recurses element-wise;
`Dict[K, V]` requires a dict and recurses over both keys and values;
a nested model requires a dict and recurses via the field loop; `Decimal`,
`datetime` and the primitives apply their standard conversions. -/
def deserialize_value : Ty → PyVal → Except PyErr PyVal
  | _, .vnone => .ok .vnone
  | .tOpt t, v => deserialize_value t v
  | .tList t, v =>
    match v with
    | .vlist xs => (exList (deserialize_value t) xs).map .vlist
    | _ => .error (.typeError ("Expected list for field, got " ++ pyTypeName v))
  | .tDict kt vt, v =>
    match v with
    | .vdict es => (exPairs (deserialize_value kt) (deserialize_value vt) es).map .vdict
    | _ => .error (.typeError ("Expected dict for field, got " ++ pyTypeName v))
  | .tModel fs, v =>
    match v with
    | .vdict es => (desFields fs es).map .vinst
    | _ => .error (.typeError ("Expected dict for dataclass field, got " ++ pyTypeName v))
  | .tDec, v => pyDecimal v
  | .tDt, v => pyFromIso v
  | .tInt, v => pyInt v
  | .tFloat, v => pyFloat v
  | .tStr, v => .ok (pyStrOf v)
  | .tBool, v => .ok (pyBool v)

/-- The per-field loop of `deserialize` (orm.py lines 112-129): a present
field's raw value is converted, a conversion failure being re-raised as the
field-naming error with the original exception as its cause; an absent
field gets its default.  The constructed instance carries the schema's
fields in declaration order. -/
def desFields : List (String × Dflt × Ty) → List (PyVal × PyVal) → Except PyErr (List (String × PyVal))
  | [], _ => .ok []
  | (name, dflt, ty) :: rest, es =>
    match pyLookup es name with
    | some raw =>
      match deserialize_value ty raw with
      | .ok v => (desFields rest es).map (fun out => (name, v) :: out)
      | .error e => .error (.fieldError name e)
    | none => (desFields rest es).map (fun out => (name, dfltVal dflt) :: out)

end

/-- Element-wise deserialization of a list value. -/
def desList (t : Ty) : List PyVal → Except PyErr (List PyVal) :=
  exList (deserialize_value t)

/-- Deserialization of a dict value: both keys and values converted. -/
def desPairs (kt vt : Ty) : List (PyVal × PyVal) → Except PyErr (List (PyVal × PyVal)) :=
  exPairs (deserialize_value kt) (deserialize_value vt)

/-- Top-level `serialize` (orm.py lines 8-42) on a dataclass instance:
every declared field's value, serialized, in a str-keyed dict. -/
def serializeModel (vs : List (String × PyVal)) : List (PyVal × PyVal) :=
  serFields vs

/-- Top-level `deserialize` (orm.py lines 44-131) into the schema `fs`. -/
def deserialize (fs : List (String × Dflt × Ty)) (data : List (PyVal × PyVal)) : Except PyErr PyVal :=
  (desFields fs data).map .vinst

/-- A run-time value of a declared field kind (the spec's closed kind
table).  Instances carry exactly the schema's field names in declaration
order; lists and mappings conform entry-wise; an optional value is null or
conforms to the inner kind. -/
inductive Conforms : Ty → PyVal → Prop where
  | int (n : Int) : Conforms .tInt (.vint n)
  | float (q : Rat) : Conforms .tFloat (.vfloat q)
  | str (s : String) : Conforms .tStr (.vstr s)
  | bool (b : Bool) : Conforms .tBool (.vbool b)
  | dec (s : String) : Conforms .tDec (.vdec s)
  | dt (s : String) : Conforms .tDt (.vdt s)
  | optNone (t : Ty) : Conforms (.tOpt t) .vnone
  | optSome {t : Ty} {v : PyVal} : Conforms t v → Conforms (.tOpt t) v
  | listNil (t : Ty) : Conforms (.tList t) (.vlist [])
  | listCons {t : Ty} {x : PyVal} {xs : List PyVal} :
      Conforms t x → Conforms (.tList t) (.vlist xs) →
      Conforms (.tList t) (.vlist (x :: xs))
  | dictNil (kt vt : Ty) : Conforms (.tDict kt vt) (.vdict [])
  | dictCons {kt vt : Ty} {k v : PyVal} {es : List (PyVal × PyVal)} :
      Conforms kt k → Conforms vt v → Conforms (.tDict kt vt) (.vdict es) →
      Conforms (.tDict kt vt) (.vdict ((k, v) :: es))
  | modelNil : Conforms (.tModel []) (.vinst [])
  | modelCons {n : String} {d : Dflt} {t : Ty} {v : PyVal}
      {fs : List (String × Dflt × Ty)} {vs : List (String × PyVal)} :
      Conforms t v → Conforms (.tModel fs) (.vinst vs) →
      Conforms (.tModel ((n, d, t) :: fs)) (.vinst ((n, v) :: vs))

/-- Key kinds whose deserialization is the identity on conforming values:
all kinds except timestamps (a passed-through datetime key fails
`fromisoformat`) and nested models (a passed-through instance key is not a
dict).  Serialization passes mapping keys through unchanged, so only such
key kinds can round-trip. -/
def keyOK : Ty → Bool
  | .tDt => false
  | .tModel _ => false
  | .tOpt t => keyOK t
  | .tList t => keyOK t
  | .tDict kt vt => keyOK kt && keyOK vt
  | _ => true

mutual

/-- Schemas whose conforming instances round-trip: every mapping key kind
is `keyOK`, and every nested model declares pairwise distinct field names —
which Python dataclasses always do. -/
def tyRT : Ty → Bool
  | .tOpt t => tyRT t
  | .tList t => tyRT t
  | .tDict kt vt => keyOK kt && tyRT vt
  | .tModel fs => fieldsRT fs
  | _ => true

/-- `tyRT` over a model's field list, plus distinctness of its names. -/
def fieldsRT : List (String × Dflt × Ty) → Bool
  | [] => true
  | (n, _, t) :: rest =>
    !(rest.any (fun f => f.1 == n)) && tyRT t && fieldsRT rest

end


/-- The spec's description of one positional `bulk_update` assignment: the
response entry's identifier and revision written onto the submitted
document (stated from the spec's words, for comparison with the index
walk of `bulkAssign`). -/
def bulkSpecAssign (d e : Doc) : Doc :=
  docSet (docSet d "_id" ((docGet e "id").getD .null)) "_rev" ((docGet e "rev").getD .null)

/-- The stored document of the spec's conflict scenario (section 8):
`D2 = (id "a", rev "2", x 9, y 9)` — metadata keys are `_id`/`_rev` in the
code. -/
def c1Stored : Doc :=
  [("_id", .str "a"), ("_rev", .str "2"), ("x", .int 9), ("y", .int 9)]

/-- A store holding `c1Stored` under `"a"`. -/
def c1Store : Store := ⟨[("a", c1Stored)], 3, 0⟩

/-- The caller's document of the conflict scenario: bound to the stale
revision `"1"`, updating `x`. -/
def c1Caller : Doc := [("_id", .str "a"), ("_rev", .str "1"), ("x", .int 2)]

/-- What `current_doc.update(doc)` produces in that scenario. -/
def c1Merged : Doc :=
  [("_id", .str "a"), ("_rev", .str "1"), ("x", .int 2), ("y", .int 9)]

/-- A store for the retry-failure scenario of `Db.put`. -/
def c2Store : Store :=
  ⟨[("b", [("_id", .str "b"), ("_rev", .str "5"), ("n", .int 1)])], 7, 0⟩

/-- A caller document bound to a stale revision of `"b"`. -/
def c2Caller : Doc := [("_id", .str "b"), ("_rev", .str "3"), ("n", .int 2)]

/-- A transport whose every response is a 500 with an empty body. -/
def failBackend : Backend Unit :=
  ⟨fun _ _ => (500, []), fun _ _ _ => ((), 500, []), fun _ _ => ((), 500, [])⟩

/-- A representative schema exercising decimals, optionals, lists,
mappings, timestamps and a nested model. -/
def rtSchema : List (String × Dflt × Ty) :=
  [("d", .missing, .tDec), ("o", .missing, .tOpt .tInt), ("l", .missing, .tList .tDt),
   ("m", .missing, .tDict .tStr .tDec), ("ts", .missing, .tDt),
   ("sub", .missing, .tModel [("a", .missing, .tInt)])]

/-- A conforming instance of `rtSchema`. -/
def rtInst : List (String × PyVal) :=
  [("d", .vdec "2.50"), ("o", .vnone), ("l", .vlist [.vdt "2024-01-02T03:04:05"]),
   ("m", .vdict [(.vstr "k", .vdec "0.1")]), ("ts", .vdt "2020-05-06T07:08:09.123456"),
   ("sub", .vinst [("a", .vint 7)])]

/-- A schema whose single field is a mapping with timestamp-typed keys. -/
def dtKeySchema : List (String × Dflt × Ty) := [("m", .missing, .tDict .tDt .tInt)]

/-- A conforming instance of `dtKeySchema`: one datetime key. -/
def dtKeyInst : List (String × PyVal) :=
  [("m", .vdict [(.vdt "2024-01-02T03:04:05", .vint 1)])]

/-- A schema with a declared default, a default factory and no default. -/
def dfltSchema : List (String × Dflt × Ty) :=
  [("a", .dval (.vint 7), .tInt), ("b", .dfactory (.vstr "g"), .tStr), ("c", .missing, .tInt)]

/-- Three fresh documents for a bulk write: null revision, empty-string
revision, and no revision at all. -/
def bulkDocsW : List Doc :=
  [[("_rev", Val.null), ("x", .int 1)], [("_rev", .str ""), ("y", .int 2)], [("z", .int 3)]]

/-- A well-formed positional `_bulk_docs` response for `bulkDocsW`. -/
def bulkRespW : List Doc :=
  [[("id", .str "u1"), ("rev", .str "r1")], [("id", .str "u2"), ("rev", .str "r2")],
   [("id", .str "u3"), ("rev", .str "r3")]]

/-- A change feed whose first cycle succeeds and whose second raises while
parsing the response. -/
def pollsW : Nat → Poll :=
  fun n => if n = 0 then .ok [[("_id", .str "c")]] else .parseFail [] "bad json"

/-- An empty store and a first-save document for the `Orm.save` witness
(`_id` assigned by the uuid default factory, `_rev` still null). -/
def c10Store : Store := ⟨[], 0, 0⟩

/-- The serialized instance saved in the `Orm.save` witness. -/
def c10Doc : Doc := [("_id", Val.str "w1"), ("_rev", Val.null), ("q", Val.int 3)]

/-! ### Dictionary lemmas -/

theorem docGet_nil (k : String) : docGet [] k = none := rfl

theorem docGet_cons (k' : String) (v' : Val) (d : Doc) (k : String) :
    docGet ((k', v') :: d) k = if k' == k then some v' else docGet d k := by
  cases h : k' == k <;> simp [docGet, List.find?, h]

theorem docGet_docSet_self (d : Doc) (k : String) (v : Val) :
    docGet (docSet d k v) k = some v := by
  induction d with
  | nil => simp [docSet, docGet_cons]
  | cons p rest ih =>
    obtain ⟨k', v'⟩ := p
    by_cases h : k' = k
    · subst h; simp [docSet, docGet_cons]
    · simp [docSet, h, docGet_cons, ih]

theorem docGet_docSet_ne (d : Doc) (k : String) (v : Val) (k' : String) (h : k ≠ k') :
    docGet (docSet d k v) k' = docGet d k' := by
  induction d with
  | nil => simp [docSet, docGet_cons, docGet_nil, h]
  | cons p rest ih =>
    obtain ⟨k0, v0⟩ := p
    by_cases h0 : k0 = k
    · subst h0; simp [docSet, docGet_cons, h]
    · simp [docSet, h0, docGet_cons, ih]

theorem docErase_cons (k0 : String) (v0 : Val) (rest : Doc) (k : String) :
    docErase ((k0, v0) :: rest) k
      = if k0 = k then docErase rest k else (k0, v0) :: docErase rest k := by
  by_cases h : k0 = k
  · subst h; simp [docErase, List.filter_cons]
  · simp [docErase, List.filter_cons, bne_iff_ne, h]

theorem docGet_docErase_self (d : Doc) (k : String) : docGet (docErase d k) k = none := by
  induction d with
  | nil => rfl
  | cons p rest ih =>
    obtain ⟨k0, v0⟩ := p
    by_cases h0 : k0 = k
    · simpa [docErase_cons, h0] using ih
    · simpa [docErase_cons, h0, docGet_cons] using ih

theorem docGet_docErase_ne (d : Doc) (k k' : String) (h : k ≠ k') :
    docGet (docErase d k) k' = docGet d k' := by
  induction d with
  | nil => rfl
  | cons p rest ih =>
    obtain ⟨k0, v0⟩ := p
    by_cases h0 : k0 = k
    · subst h0
      simp [docErase_cons, docGet_cons, ih, beq_iff_eq, h]
    · simp [docErase_cons, h0, docGet_cons, ih]

theorem docGet_eq_none_of_not_mem (d : Doc) (k : String) (h : k ∉ d.map Prod.fst) :
    docGet d k = none := by
  induction d with
  | nil => rfl
  | cons p rest ih =>
    obtain ⟨k0, v0⟩ := p
    simp only [List.map_cons, List.mem_cons] at h
    push_neg at h
    have hne : k0 ≠ k := fun e => h.1 e.symm
    simp [docGet_cons, hne, ih h.2]

theorem docUpdate_nil (a : Doc) : docUpdate a [] = a := rfl

theorem docUpdate_cons (a : Doc) (k : String) (v : Val) (b : Doc) :
    docUpdate a ((k, v) :: b) = docUpdate (docSet a k v) b := rfl

theorem docGet_docUpdate_of_none (a b : Doc) (k : String) (h : docGet b k = none) :
    docGet (docUpdate a b) k = docGet a k := by
  induction b generalizing a with
  | nil => rfl
  | cons p rest ih =>
    obtain ⟨k0, v0⟩ := p
    rw [docGet_cons] at h
    by_cases h0 : k0 = k
    · subst h0; simp at h
    · rw [docUpdate_cons, ih _ (by simpa [h0] using h), docGet_docSet_ne _ _ _ _ h0]

theorem docGet_docUpdate_of_get (a b : Doc) (k : String) (v : Val)
    (hnd : (b.map Prod.fst).Nodup) (h : docGet b k = some v) :
    docGet (docUpdate a b) k = some v := by
  induction b generalizing a with
  | nil => simp [docGet_nil] at h
  | cons p rest ih =>
    obtain ⟨k0, v0⟩ := p
    simp only [List.map_cons, List.nodup_cons] at hnd
    rw [docGet_cons] at h
    by_cases h0 : k0 = k
    · subst h0
      simp only [beq_self_eq_true, if_pos] at h
      obtain rfl : v0 = v := by simpa using h
      rw [docUpdate_cons,
        docGet_docUpdate_of_none _ _ _ (docGet_eq_none_of_not_mem _ _ hnd.1),
        docGet_docSet_self]
    · rw [docUpdate_cons]
      exact ih (docSet a k0 v0) hnd.2 (by simpa [h0] using h)

theorem docErase_keys_sublist (d : Doc) (k : String) :
    List.Sublist ((docErase d k).map Prod.fst) (d.map Prod.fst) :=
  (List.filter_sublist d).map Prod.fst

theorem docErase_keys_nodup (d : Doc) (k : String) (h : (d.map Prod.fst).Nodup) :
    ((docErase d k).map Prod.fst).Nodup :=
  h.sublist (docErase_keys_sublist d k)

/-! ### Store lemmas -/

theorem find_storeSave_self (l : List (String × Doc)) (i : String) (d : Doc) :
    ((storeSave l i d).find? (fun p => p.1 == i)).map (·.2) = some d := by
  induction l with
  | nil => simp [storeSave, List.find?]
  | cons p rest ih =>
    obtain ⟨i0, d0⟩ := p
    by_cases h0 : i0 = i
    · subst h0; simp [storeSave, List.find?]
    · simp [storeSave, h0, List.find?, ih]

/-! ### Client and store helper lemmas -/

theorem store_httpPut_cases (st : Store) (docId : String) (body : Doc) :
    (Store.httpPut st docId body
       = (⟨storeSave st.docs docId
              (docSet (docSet body "_id" (.str docId)) "_rev" (.str st.freshRev)),
            st.nextRev + 1, st.nextId⟩, 201,
          [("ok", .bool true), ("id", .str docId), ("rev", .str st.freshRev)]))
    ∨ Store.httpPut st docId body = (st, 409, [("error", .str "conflict")]) := by
  by_cases h : (match st.lookup docId, docGet body "_rev" with
      | none, none => true
      | some stored, some r => docGet stored "_rev" == some r
      | _, _ => false) = true
  · exact Or.inl (by simp [Store.httpPut, h])
  · exact Or.inr (by simp [Store.httpPut, h])

theorem couch_dbPut_ret (st : Store) (doc : Doc) (docId : String)
    (hid : docGet doc "_id" = some (.str docId))
    (hnd : (doc.map Prod.fst).Nodup) (d : Doc)
    (hres : (dbPut couchBackend st doc).res = .ret d) :
    ∃ rv stored, ((dbPut couchBackend st doc).state).lookup docId = some stored
      ∧ docGet stored "_id" = some (.str docId)
      ∧ docGet stored "_rev" = some (.str rv)
      ∧ docGet d "_id" = some (.str docId)
      ∧ docGet d "_rev" = some (.str rv) := by
  simp only [dbPut, hid, couchBackend, pyStr] at hres ⊢
  set doc1 := if (docGet doc "_rev" == some Val.null) = true then docErase doc "_rev" else doc
    with hdoc1
  have hid1 : docGet doc1 "_id" = some (.str docId) := by
    rw [hdoc1]; split
    · rw [docGet_docErase_ne _ _ _ (by decide)]; exact hid
    · exact hid
  have hnd1 : (doc1.map Prod.fst).Nodup := by
    rw [hdoc1]; split
    · exact docErase_keys_nodup _ _ hnd
    · exact hnd
  rcases store_httpPut_cases st docId doc1 with h1 | h1
  · rw [h1] at hres ⊢
    simp only [show ((201 : Nat) == 200 || (201 : Nat) == 201) = true from rfl, if_true]
      at hres ⊢
    have hrev : docGet [("ok", Val.bool true), ("id", Val.str docId),
        ("rev", Val.str st.freshRev)] "rev" = some (.str st.freshRev) := rfl
    simp only [hrev] at hres ⊢
    refine ⟨st.freshRev, docSet (docSet doc1 "_id" (.str docId)) "_rev" (.str st.freshRev),
      ?_, ?_, ?_, ?_, ?_⟩
    · simp only [Store.lookup]
      exact find_storeSave_self _ _ _
    · rw [docGet_docSet_ne _ _ _ _ (by decide), docGet_docSet_self]
    · rw [docGet_docSet_self]
    · obtain rfl : d = docSet doc1 "_rev" (.str st.freshRev) := by
        simpa using hres.symm
      rw [docGet_docSet_ne _ _ _ _ (by decide)]; exact hid1
    · obtain rfl : d = docSet doc1 "_rev" (.str st.freshRev) := by
        simpa using hres.symm
      rw [docGet_docSet_self]
  · rw [h1] at hres ⊢
    simp only [show ((409 : Nat) == 200 || (409 : Nat) == 201) = false from rfl,
      Bool.false_eq_true, if_false] at hres ⊢
    cases hlk : Store.lookup st docId with
    | none =>
      simp only [dbGet, Store.httpGet, hlk] at hres
      simp at hres
    | some current =>
      simp only [dbGet, Store.httpGet, hlk] at hres ⊢
      simp only [show ((200 : Nat) == 200) = true from rfl, if_true] at hres ⊢
      cases hemp : current.isEmpty with
      | true => simp [hemp] at hres
      | false =>
        simp only [hemp, Bool.false_eq_true, if_false] at hres ⊢
        have hmid : docGet (docUpdate current doc1) "_id" = some (.str docId) :=
          docGet_docUpdate_of_get _ _ _ _ hnd1 hid1
        simp only [hmid, pyStr] at hres ⊢
        rcases store_httpPut_cases st docId (docUpdate current doc1) with h2 | h2
        · rw [h2] at hres ⊢
          have hrev : docGet [("ok", Val.bool true), ("id", Val.str docId),
              ("rev", Val.str st.freshRev)] "rev" = some (.str st.freshRev) := rfl
          simp only [hrev] at hres ⊢
          refine ⟨st.freshRev,
            docSet (docSet (docUpdate current doc1) "_id" (.str docId)) "_rev"
              (.str st.freshRev), ?_, ?_, ?_, ?_, ?_⟩
          · simp only [Store.lookup]
            exact find_storeSave_self _ _ _
          · rw [docGet_docSet_ne _ _ _ _ (by decide), docGet_docSet_self]
          · rw [docGet_docSet_self]
          · obtain rfl : d = docSet doc1 "_rev" (.str st.freshRev) := by
              simpa using hres.symm
            rw [docGet_docSet_ne _ _ _ _ (by decide)]; exact hid1
          · obtain rfl : d = docSet doc1 "_rev" (.str st.freshRev) := by
              simpa using hres.symm
            rw [docGet_docSet_self]
        · rw [h2] at hres
          have hnone : docGet [("error", Val.str "conflict")] "rev" = none := rfl
          simp only [hnone] at hres
          simp at hres

theorem bulkAssign_eq_zipWith (ds es : List Doc) (hlen : es.length = ds.length)
    (hwf : ∀ e ∈ es, (docGet e "id").isSome ∧ (docGet e "rev").isSome) :
    bulkAssign ds es = some (List.zipWith bulkSpecAssign ds es) := by
  induction ds generalizing es with
  | nil =>
    cases es with
    | nil => rfl
    | cons e es => simp at hlen
  | cons d ds ih =>
    cases es with
    | nil => simp at hlen
    | cons e es =>
      have hmem := hwf e (List.mem_cons_self _ _)
      obtain ⟨iv, hiv⟩ := Option.isSome_iff_exists.mp hmem.1
      obtain ⟨rv, hrv⟩ := Option.isSome_iff_exists.mp hmem.2
      simp only [bulkAssign, hiv, hrv]
      rw [ih es (by simpa using hlen) (fun e' he' => hwf e' (List.mem_cons_of_mem _ he'))]
      simp [List.zipWith, bulkSpecAssign, hiv, hrv]

theorem changesRun_ok_prefix (polls : Nat → Poll) (k : Nat)
    (hfirst : ∀ j, j < k → ∃ ds, polls j = .ok ds) :
    (changesRun polls k).status = .running ∧ (changesRun polls k).log = [] := by
  induction k with
  | zero => exact ⟨rfl, rfl⟩
  | succ k ih =>
    obtain ⟨hst, hlog⟩ := ih (fun j hj => hfirst j (Nat.lt_succ_of_lt hj))
    obtain ⟨ds, hds⟩ := hfirst k (Nat.lt_succ_self k)
    simp [changesRun, hst, hds, hlog]

theorem changesRun_stable (polls : Nat → Poll) (n : Nat)
    (h : (changesRun polls n).status ≠ .running) :
    ∀ m, n ≤ m → changesRun polls m = changesRun polls n := by
  intro m hm
  induction m with
  | zero =>
    obtain rfl : n = 0 := Nat.le_zero.mp hm
    rfl
  | succ m ih =>
    rcases Nat.lt_or_ge n (m + 1) with hlt | hge
    · have heq := ih (Nat.lt_succ_iff.mp hlt)
      show changesRun polls (m + 1) = _
      rw [changesRun, heq]
      cases hst : (changesRun polls n).status with
      | running => exact absurd hst h
      | ended => rfl
      | raised e => rfl
    · obtain rfl : n = m + 1 := Nat.le_antisymm hm hge
      rfl

/-! ### Marshaller helper lemmas -/

theorem serList_eq_map (xs : List PyVal) : serList xs = xs.map serialize_value := by
  induction xs with
  | nil => rfl
  | cons x rest ih => simp [serList, ih]

theorem serPairs_eq_map (es : List (PyVal × PyVal)) :
    serPairs es = es.map (fun p => (p.1, serialize_value p.2)) := by
  induction es with
  | nil => rfl
  | cons p rest ih => obtain ⟨k, v⟩ := p; simp [serPairs, ih]

theorem serFields_eq_map (vs : List (String × PyVal)) :
    serFields vs = vs.map (fun f => (PyVal.vstr f.1, serialize_value f.2)) := by
  induction vs with
  | nil => rfl
  | cons f rest ih => obtain ⟨n, v⟩ := f; simp [serFields, ih]

theorem pyLookup_cons (k : PyVal) (w : PyVal) (es : List (PyVal × PyVal)) (name : String) :
    pyLookup ((k, w) :: es) name
      = if (match k with | .vstr s => s == name | _ => false) then some w
        else pyLookup es name := by
  cases h : (match k with | .vstr s => s == name | _ => false) <;>
    simp [pyLookup, List.find?, h]

theorem desFields_error_shape (fs : List (String × Dflt × Ty)) (data : List (PyVal × PyVal)) :
    ∀ e, desFields fs data = .error e →
      ∃ n c, e = .fieldError n c
        ∧ ∃ d t raw, (n, d, t) ∈ fs ∧ pyLookup data n = some raw
            ∧ deserialize_value t raw = .error c := by
  induction fs with
  | nil => intro e he; simp [desFields] at he
  | cons f rest ih =>
    obtain ⟨n0, d0, t0⟩ := f
    intro e he
    cases hlk : pyLookup data n0 with
    | some raw0 =>
      cases hc : deserialize_value t0 raw0 with
      | ok v0 =>
        simp only [desFields, hlk, hc] at he
        cases hrest : desFields rest data with
        | ok out => rw [hrest] at he; simp [Except.map] at he
        | error e' =>
          rw [hrest] at he
          obtain rfl : e' = e := by simpa [Except.map] using he
          obtain ⟨n, c, rfl, d, t, raw, hmem, hl, hcv⟩ := ih _ hrest
          exact ⟨n, c, rfl, d, t, raw, List.mem_cons_of_mem _ hmem, hl, hcv⟩
      | error c0 =>
        simp only [desFields, hlk, hc] at he
        obtain rfl : e = .fieldError n0 c0 := by simpa using he.symm
        exact ⟨n0, c0, rfl, d0, t0, raw0, List.mem_cons_self _ _, hlk, hc⟩
    | none =>
      simp only [desFields, hlk] at he
      cases hrest : desFields rest data with
      | ok out => rw [hrest] at he; simp [Except.map] at he
      | error e' =>
        rw [hrest] at he
        obtain rfl : e' = e := by simpa [Except.map] using he
        obtain ⟨n, c, rfl, d, t, raw, hmem, hl, hcv⟩ := ih _ hrest
        exact ⟨n, c, rfl, d, t, raw, List.mem_cons_of_mem _ hmem, hl, hcv⟩

theorem desFields_error_of_field_fails (fs : List (String × Dflt × Ty))
    (data : List (PyVal × PyVal)) (n : String) (d : Dflt) (t : Ty) (raw : PyVal) (c : PyErr)
    (hmem : (n, d, t) ∈ fs) (hlk : pyLookup data n = some raw)
    (hconv : deserialize_value t raw = .error c) :
    ∃ e, desFields fs data = .error e := by
  induction fs with
  | nil => simp at hmem
  | cons f rest ih =>
    obtain ⟨n0, d0, t0⟩ := f
    cases hlk0 : pyLookup data n0 with
    | some raw0 =>
      cases hc0 : deserialize_value t0 raw0 with
      | error c0 => exact ⟨.fieldError n0 c0, by simp [desFields, hlk0, hc0]⟩
      | ok v0 =>
        rcases List.mem_cons.mp hmem with heq | hmem'
        · obtain ⟨rfl, rfl, rfl⟩ : n = n0 ∧ d = d0 ∧ t = t0 := by
            simpa using heq
          rw [hlk0] at hlk
          obtain rfl : raw0 = raw := by simpa using hlk
          rw [hc0] at hconv
          simp at hconv
        · obtain ⟨e, he⟩ := ih hmem'
          exact ⟨e, by simp [desFields, hlk0, hc0, he, Except.map]⟩
    | none =>
      rcases List.mem_cons.mp hmem with heq | hmem'
      · obtain ⟨rfl, rfl, rfl⟩ : n = n0 ∧ d = d0 ∧ t = t0 := by
          simpa using heq
        rw [hlk0] at hlk
        simp at hlk
      · obtain ⟨e, he⟩ := ih hmem'
        exact ⟨e, by simp [desFields, hlk0, he, Except.map]⟩

theorem deserialize_error_to_desFields (fs : List (String × Dflt × Ty))
    (data : List (PyVal × PyVal)) (e : PyErr) (he : deserialize fs data = .error e) :
    desFields fs data = .error e := by
  cases h : desFields fs data with
  | ok out => rw [deserialize, h] at he; simp [Except.map] at he
  | error e' =>
    rw [deserialize, h] at he
    obtain rfl : e' = e := by simpa [Except.map] using he
    rfl

theorem serialize_value_ne_vnone (v : PyVal) (h : v ≠ .vnone) :
    serialize_value v ≠ .vnone := by
  cases v
  case vnone => exact absurd rfl h
  all_goals simp [serialize_value]

theorem des_opt_of_ne (t : Ty) (v : PyVal) (h : v ≠ .vnone) :
    deserialize_value (.tOpt t) v = deserialize_value t v := by
  cases v <;> first | rfl | exact absurd rfl h

theorem map_vlist_ok_inv {r : Except PyErr (List PyVal)} {ys : List PyVal}
    (h : Except.map PyVal.vlist r = .ok (.vlist ys)) : r = .ok ys := by
  cases r with
  | ok l =>
    obtain rfl : l = ys := by simpa [Except.map] using h
    rfl
  | error e => simp [Except.map] at h

theorem map_vdict_ok_inv {r : Except PyErr (List (PyVal × PyVal))}
    {ys : List (PyVal × PyVal)}
    (h : Except.map PyVal.vdict r = .ok (.vdict ys)) : r = .ok ys := by
  cases r with
  | ok l =>
    obtain rfl : l = ys := by simpa [Except.map] using h
    rfl
  | error e => simp [Except.map] at h

theorem map_vinst_ok_inv {r : Except PyErr (List (String × PyVal))}
    {ys : List (String × PyVal)}
    (h : Except.map PyVal.vinst r = .ok (.vinst ys)) : r = .ok ys := by
  cases r with
  | ok l =>
    obtain rfl : l = ys := by simpa [Except.map] using h
    rfl
  | error e => simp [Except.map] at h

theorem des_id_of_keyOK {t : Ty} {v : PyVal} (h : Conforms t v) :
    keyOK t = true → deserialize_value t v = .ok v := by
  induction h with
  | int n => exact fun _ => rfl
  | float q => exact fun _ => rfl
  | str s => exact fun _ => rfl
  | bool b => exact fun _ => rfl
  | dec s => exact fun _ => rfl
  | dt s => intro hk; simp [keyOK] at hk
  | optNone t => exact fun _ => rfl
  | optSome hv ih =>
    rename_i t v
    intro hk
    by_cases hveq : v = .vnone
    · subst hveq; rfl
    · rw [des_opt_of_ne _ _ hveq]
      exact ih (by simpa [keyOK] using hk)
  | listNil t => exact fun _ => rfl
  | listCons hx hxs ihx ihxs =>
    rename_i t x xs
    intro hk
    have hk' : keyOK t = true := by simpa [keyOK] using hk
    have h1 := ihx hk'
    have h2 : exList (deserialize_value t) xs = .ok xs :=
      map_vlist_ok_inv (ihxs hk)
    show Except.map PyVal.vlist (exList (deserialize_value t) (x :: xs))
      = .ok (.vlist (x :: xs))
    simp [exList, h1, h2, Except.map]
  | dictNil kt vt => exact fun _ => rfl
  | dictCons hkc hvc hes ihk ihv ihes =>
    rename_i kt vt k v es
    intro hk
    obtain ⟨hk1, hk2⟩ : keyOK kt = true ∧ keyOK vt = true := by
      simpa [keyOK, Bool.and_eq_true] using hk
    have h1 := ihk hk1
    have h2 := ihv hk2
    have h3 : exPairs (deserialize_value kt) (deserialize_value vt) es = .ok es :=
      map_vdict_ok_inv (ihes hk)
    show Except.map PyVal.vdict
        (exPairs (deserialize_value kt) (deserialize_value vt) ((k, v) :: es))
      = .ok (.vdict ((k, v) :: es))
    simp [exPairs, h1, h2, h3, Except.map]
  | modelNil => intro hk; simp [keyOK] at hk
  | modelCons hv hfs ihv ihfs => intro hk; simp [keyOK] at hk

theorem desFields_skip_head (fs : List (String × Dflt × Ty)) (k : String) (w : PyVal)
    (es : List (PyVal × PyVal)) (hnone : ∀ f ∈ fs, f.1 ≠ k) :
    desFields fs ((.vstr k, w) :: es) = desFields fs es := by
  induction fs with
  | nil => rfl
  | cons f rest ih =>
    obtain ⟨n0, d0, t0⟩ := f
    have hne : n0 ≠ k := hnone _ (List.mem_cons_self _ _)
    have hl : pyLookup ((.vstr k, w) :: es) n0 = pyLookup es n0 := by
      rw [pyLookup_cons]
      simp [beq_eq_false_iff_ne.mpr (fun e => hne e.symm)]
    have ih' := ih (fun f hf => hnone f (List.mem_cons_of_mem _ hf))
    simp only [desFields, hl, ih']

theorem des_ser_roundtrip {t : Ty} {v : PyVal} (h : Conforms t v) :
    tyRT t = true → deserialize_value t (serialize_value v) = .ok v := by
  induction h with
  | int n => exact fun _ => rfl
  | float q => exact fun _ => rfl
  | str s => exact fun _ => rfl
  | bool b => exact fun _ => rfl
  | dec s => exact fun _ => rfl
  | dt s => exact fun _ => rfl
  | optNone t => exact fun _ => rfl
  | optSome hv ih =>
    rename_i t v
    intro hrt
    by_cases hveq : v = .vnone
    · subst hveq; rfl
    · rw [des_opt_of_ne _ _ (serialize_value_ne_vnone v hveq)]
      exact ih (by simpa [tyRT] using hrt)
  | listNil t => exact fun _ => rfl
  | listCons hx hxs ihx ihxs =>
    rename_i t x xs
    intro hrt
    have hrt' : tyRT t = true := by simpa [tyRT] using hrt
    have h1 := ihx hrt'
    have h2 : exList (deserialize_value t) (serList xs) = .ok xs :=
      map_vlist_ok_inv (ihxs hrt)
    show Except.map PyVal.vlist
        (exList (deserialize_value t) (serialize_value x :: serList xs))
      = .ok (.vlist (x :: xs))
    simp [exList, h1, h2, Except.map]
  | dictNil kt vt => exact fun _ => rfl
  | dictCons hkc hvc hes ihk ihv ihes =>
    rename_i kt vt k v es
    intro hrt
    obtain ⟨hk1, hrt2⟩ : keyOK kt = true ∧ tyRT vt = true := by
      simpa [tyRT, Bool.and_eq_true] using hrt
    have h1 : deserialize_value kt k = .ok k := des_id_of_keyOK hkc hk1
    have h2 := ihv hrt2
    have h3 : exPairs (deserialize_value kt) (deserialize_value vt) (serPairs es)
        = .ok es := map_vdict_ok_inv (ihes hrt)
    show Except.map PyVal.vdict
        (exPairs (deserialize_value kt) (deserialize_value vt)
          ((k, serialize_value v) :: serPairs es))
      = .ok (.vdict ((k, v) :: es))
    simp [exPairs, h1, h2, h3, Except.map]
  | modelNil => exact fun _ => rfl
  | modelCons hv hfs ihv ihfs =>
    rename_i n d t v fs vs
    intro hrt
    obtain ⟨⟨hno, ht⟩, hrest⟩ :
        ((∀ (a : String) (b : Dflt) (c : Ty), (a, b, c) ∈ fs → ¬a = n) ∧ tyRT t = true)
          ∧ fieldsRT fs = true := by
      simpa [tyRT, fieldsRT, Bool.and_eq_true, Bool.not_eq_true'] using hrt
    have hnone : ∀ f ∈ fs, f.1 ≠ n := by
      intro f hf
      obtain ⟨a, b, c⟩ := f
      exact hno a b c hf
    have h1 := ihv ht
    have h2 : desFields fs (serFields vs) = .ok vs := by
      have hm : tyRT (.tModel fs) = true := hrest
      exact map_vinst_ok_inv (ihfs hm)
    have hlk : pyLookup ((.vstr n, serialize_value v) :: serFields vs) n
        = some (serialize_value v) := by
      rw [pyLookup_cons]; simp
    show Except.map PyVal.vinst
        (desFields ((n, d, t) :: fs) ((.vstr n, serialize_value v) :: serFields vs))
      = .ok (.vinst ((n, v) :: vs))
    simp only [desFields, hlk, h1,
      desFields_skip_head fs n (serialize_value v) (serFields vs) hnone, h2, Except.map]

/-! ### Claim theorems -/

/-- C1.  At the spec's conflict scenario — stored
`(_id "a", _rev "2", x 9, y 9)`, caller doc `(_id "a", _rev "1", x 2)` —
the merge direction of the claim holds (the caller's `x` wins, the server's
untouched `y` survives) but `current_doc.update(doc)` also lets the
caller's stale `_rev "1"` overwrite the fetched revision `"2"`, so the
retried write carries the stale revision, is rejected by the store's
conditional-write check, and `Db.put` then raises a `KeyError` reading
`'rev'` from the failure body instead of succeeding with a new revision. -/
theorem c1_conflict_retry_carries_stale_rev :
    (dbPut couchBackend c1Store c1Caller).retried = some c1Merged
    ∧ docGet c1Merged "x" = some (.int 2)
    ∧ docGet c1Merged "y" = some (.int 9)
    ∧ docGet c1Merged "_rev" = some (.str "1")
    ∧ docGet c1Merged "_rev" ≠ some (.str "2")
    ∧ (dbPut couchBackend c1Store c1Caller).res = PutRes.keyError :=
  ⟨rfl, rfl, rfl, rfl, by decide, rfl⟩

/-- C2 (counterexample).  An upsert of a document bound to a stale revision
against a store holding revision "5": `Db.put` ends in a raised `KeyError`,
not the `None` the claim promises for a failed retry. -/
theorem c2_retry_failure_raises :
    (dbPut couchBackend c2Store c2Caller).res = PutRes.keyError
    ∧ (dbPut couchBackend c2Store c2Caller).res ≠ PutRes.absent :=
  ⟨rfl, by decide⟩

/-- C2 (amended).  For an upsert of a document carrying an identifier and a
non-null revision: when the re-fetch after the rejected conditional write
finds nothing the result is absent, as claimed; but when the stored
document's revision differs from the caller's (so the single retry is
rejected as well), `Db.put` raises a `KeyError` instead of returning
absent. -/
theorem c2_upsert_absent_or_raise (st : Store) (doc : Doc) (docId : String) (r : Val)
    (hid : docGet doc "_id" = some (.str docId))
    (hrev : docGet doc "_rev" = some r) (hr : r ≠ .null)
    (hnd : (doc.map Prod.fst).Nodup) :
    (Store.lookup st docId = none → (dbPut couchBackend st doc).res = .absent)
    ∧ (∀ stored rv, Store.lookup st docId = some stored →
        docGet stored "_rev" = some rv → rv ≠ r →
        (dbPut couchBackend st doc).res = .keyError) := by
  constructor
  · intro hlk
    simp [dbPut, hid, hrev, hr, couchBackend, Store.httpPut, Store.httpGet, dbGet, pyStr, hlk]
  · intro stored rv hlk hsrev hne
    have hsne : stored.isEmpty = false := by
      cases stored with
      | nil => simp [docGet] at hsrev
      | cons p rest => rfl
    have hok : (docGet stored "_rev" == some r) = false := by
      rw [hsrev]
      exact beq_eq_false_iff_ne.mpr (by simpa using hne)
    have hmid : docGet (docUpdate stored doc) "_id" = some (.str docId) :=
      docGet_docUpdate_of_get stored doc "_id" _ hnd hid
    have hmrev : docGet (docUpdate stored doc) "_rev" = some r :=
      docGet_docUpdate_of_get stored doc "_rev" _ hnd hrev
    have h409 : docGet [("error", Val.str "conflict")] "rev" = none := rfl
    simp [dbPut, hid, hrev, hr, couchBackend, Store.httpPut, Store.httpGet, dbGet, pyStr,
      hlk, hsne, hok, hmid, hmrev, h409]

/-- C2 (witness): against an empty store, an upsert bound to revision "1"
is rejected, the re-fetch finds nothing, and the result is absent. -/
theorem c2_upsert_absent_or_raise_witness :
    (dbPut couchBackend ⟨[], 0, 0⟩
        [("_id", Val.str "w"), ("_rev", Val.str "1"), ("k", Val.int 0)]).res
      = PutRes.absent :=
  (c2_upsert_absent_or_raise ⟨[], 0, 0⟩
      [("_id", Val.str "w"), ("_rev", Val.str "1"), ("k", Val.int 0)] "w" (Val.str "1")
      rfl rfl (by decide) (by decide)).1 rfl

/-- C3 (counterexample).  A schema whose mapping field has timestamp-typed
keys does not round-trip: serialization passes the datetime key through
unchanged while deserialization feeds it to `fromisoformat`, which requires
a string — so `deserialize` of a serialized conforming instance raises
instead of reconstructing it. -/
theorem c3_datetime_key_roundtrip_fails :
    deserialize dtKeySchema (serializeModel dtKeyInst)
      = .error (.fieldError "m"
          (.typeError "fromisoformat: argument must be str, not datetime"))
    ∧ ∀ out, deserialize dtKeySchema (serializeModel dtKeyInst) ≠ .ok out :=
  ⟨rfl, fun _ h => nomatch h⟩

/-- C3 (amended).  For every model instance of a declared schema whose
nested models declare pairwise distinct field names (as Python dataclasses
do) and whose mapping key kinds deserialize to themselves — every kind
except timestamps and nested models — deserializing the serialized
instance reconstructs it exactly, field by field, decimals and timestamp
values included. -/
theorem c3_roundtrip (fs : List (String × Dflt × Ty)) (vs : List (String × PyVal))
    (h : Conforms (.tModel fs) (.vinst vs)) (hrt : tyRT (.tModel fs) = true) :
    deserialize fs (serializeModel vs) = .ok (.vinst vs) :=
  des_ser_roundtrip h hrt

/-- C3 (witness): a representative instance with an exact decimal, a null
optional, a list of timestamps, a string-keyed map of decimals, a
timestamp and a nested model round-trips exactly. -/
theorem c3_roundtrip_witness :
    deserialize rtSchema (serializeModel rtInst) = .ok (.vinst rtInst) :=
  c3_roundtrip rtSchema rtInst
    (by
      unfold rtSchema rtInst
      exact Conforms.modelCons (Conforms.dec "2.50")
        (Conforms.modelCons (Conforms.optNone Ty.tInt)
          (Conforms.modelCons
            (Conforms.listCons (Conforms.dt "2024-01-02T03:04:05")
              (Conforms.listNil Ty.tDt))
            (Conforms.modelCons
              (Conforms.dictCons (Conforms.str "k") (Conforms.dec "0.1")
                (Conforms.dictNil Ty.tStr Ty.tDec))
              (Conforms.modelCons (Conforms.dt "2020-05-06T07:08:09.123456")
                (Conforms.modelCons (Conforms.modelCons (Conforms.int 7) Conforms.modelNil)
                  Conforms.modelNil)))))) rfl

/-- C4.  A declared field absent from the input document never makes
`deserialize` raise an error naming that field, and in every successful
deserialization the field is assigned its declared default value if one is
present, else its default factory's product, else null (`dfltVal` spells
out that precedence; a Python dataclass field never declares both a
default and a factory). -/
theorem c4_missing_field_defaults (fs : List (String × Dflt × Ty))
    (data : List (PyVal × PyVal)) (n : String) (d : Dflt) (t : Ty)
    (hmem : (n, d, t) ∈ fs) (habs : pyLookup data n = none) :
    (∀ e, deserialize fs data ≠ .error (.fieldError n e))
    ∧ (∀ out, desFields fs data = .ok out → (n, dfltVal d) ∈ out) := by
  constructor
  · intro e he
    have hf := deserialize_error_to_desFields fs data _ he
    obtain ⟨n', c, hne, d', t', raw, _, hl, _⟩ := desFields_error_shape fs data _ hf
    obtain rfl : n' = n := by cases hne; rfl
    rw [habs] at hl
    simp at hl
  · intro out hout
    induction fs generalizing out with
    | nil => simp at hmem
    | cons f rest ih =>
      obtain ⟨n0, d0, t0⟩ := f
      cases hlk0 : pyLookup data n0 with
      | some raw0 =>
        cases hc0 : deserialize_value t0 raw0 with
        | error c0 => simp [desFields, hlk0, hc0] at hout
        | ok v0 =>
          simp only [desFields, hlk0, hc0] at hout
          cases hrest : desFields rest data with
          | error e' => rw [hrest] at hout; simp [Except.map] at hout
          | ok out' =>
            rw [hrest] at hout
            obtain rfl : out = (n0, v0) :: out' := by simpa [Except.map] using hout.symm
            rcases List.mem_cons.mp hmem with heq | hmem'
            · obtain ⟨rfl, rfl, rfl⟩ : n = n0 ∧ d = d0 ∧ t = t0 := by simpa using heq
              rw [hlk0] at habs; simp at habs
            · exact List.mem_cons_of_mem _ (ih hmem' out' hrest)
      | none =>
        simp only [desFields, hlk0] at hout
        cases hrest : desFields rest data with
        | error e' => rw [hrest] at hout; simp [Except.map] at hout
        | ok out' =>
          rw [hrest] at hout
          obtain rfl : out = (n0, dfltVal d0) :: out' := by simpa [Except.map] using hout.symm
          rcases List.mem_cons.mp hmem with heq | hmem'
          · obtain ⟨rfl, rfl, rfl⟩ : n = n0 ∧ d = d0 ∧ t = t0 := by simpa using heq
            exact List.mem_cons_self _ _
          · exact List.mem_cons_of_mem _ (ih hmem' out' hrest)

/-- C4 (witness): deserializing the empty document against a schema with a
declared default, a default factory and no default assigns 7, "g" and null
respectively; shown here for the no-default field. -/
theorem c4_missing_field_defaults_witness :
    ("c", PyVal.vnone)
      ∈ ([("a", PyVal.vint 7), ("b", PyVal.vstr "g"), ("c", PyVal.vnone)] :
          List (String × PyVal)) :=
  (c4_missing_field_defaults dfltSchema [] "c" .missing .tInt (by simp [dfltSchema])
      rfl).2 _ rfl

/-- C5.  `Db.get` returns `None` and `Db.post` returns `None` on every
non-success transport response; `Db.find` returns the empty list on every
non-success response, when the body lacks a `docs` member, and when the
selector matched nothing (a 200 response whose `docs` is empty) — by its
type it never returns `None`, and the embedded handler is total, never an
exception. -/
theorem c5_fail_closed :
    (∀ (σ : Type) (B : Backend σ) (s : σ) (docId : String),
        (B.httpGetDoc s docId).1 ≠ 200 → dbGet B s docId = none)
    ∧ (∀ (σ : Type) (B : Backend σ) (s : σ) (doc : Doc),
        (B.httpPost s doc).2.1 ≠ 201 → (dbPost B s doc).2 = .absent)
    ∧ (∀ (status : Nat) (docsField : Option (List Doc)),
        status ≠ 200 → dbFind status docsField = [])
    ∧ dbFind 200 (some []) = []
    ∧ dbFind 200 none = [] := by
  refine ⟨?_, ?_, ?_, rfl, rfl⟩
  · intro σ B s docId h
    simp [dbGet, h]
  · intro σ B s doc h
    simp [dbPost, h]
  · intro status docsField h
    simp [dbFind, h]

/-- C5 (witness): a transport answering 500 everywhere makes `Db.get` and
`Db.post` return `None`; a 404 `_find` and an empty 200 `_find` both yield
the empty list. -/
theorem c5_fail_closed_witness :
    dbGet failBackend () "x" = none
    ∧ (dbPost failBackend () []).2 = PutRes.absent
    ∧ dbFind 404 none = []
    ∧ dbFind 200 (some []) = [] :=
  ⟨c5_fail_closed.1 Unit failBackend () "x" (by decide),
   c5_fail_closed.2.1 Unit failBackend () [] (by decide),
   c5_fail_closed.2.2.1 404 none (by decide),
   c5_fail_closed.2.2.2.1⟩

/-- C6.  Under the claim's precondition that the bulk response aligns
positionally with the request (same length, each entry carrying `id` and
`rev`), `bulk_update` strips the `_rev` binding exactly from the documents
whose revision is null or empty (or falsy) and leaves the others untouched,
submits the batch once, and returns the documents in submission order, the
i-th document updated with the i-th response entry's identifier and
revision. -/
theorem c6_bulk_positional (docs resp : List Doc)
    (hlen : resp.length = docs.length)
    (hwf : ∀ e ∈ resp, (docGet e "id").isSome ∧ (docGet e "rev").isSome) :
    bulk_update resp docs = some (List.zipWith bulkSpecAssign (docs.map stripNewRev) resp)
    ∧ (List.zipWith bulkSpecAssign (docs.map stripNewRev) resp).length = docs.length
    ∧ (∀ i (h3 : i < (List.zipWith bulkSpecAssign (docs.map stripNewRev) resp).length)
        (h1 : i < docs.length) (h2 : i < resp.length),
        (List.zipWith bulkSpecAssign (docs.map stripNewRev) resp).get ⟨i, h3⟩
          = bulkSpecAssign (stripNewRev (docs.get ⟨i, h1⟩)) (resp.get ⟨i, h2⟩))
    ∧ (∀ d ∈ docs, pyFalsyOpt (docGet d "_rev") = true → docGet (stripNewRev d) "_rev" = none)
    ∧ (∀ d ∈ docs, pyFalsyOpt (docGet d "_rev") = false → stripNewRev d = d) := by
  refine ⟨?_, ?_, ?_, ?_, ?_⟩
  · unfold bulk_update
    exact bulkAssign_eq_zipWith _ _ (by simpa using hlen) hwf
  · simp [hlen]
  · intro i h3 h1 h2
    simp [List.get_eq_getElem, List.getElem_zipWith, List.getElem_map]
  · intro d _ hf
    unfold stripNewRev
    rw [if_pos hf]
    exact docGet_docErase_self _ _
  · intro d _ hf
    unfold stripNewRev
    simp [hf]

/-- C6 (witness): three fresh documents (null revision, empty revision, no
revision) with a well-formed three-entry response. -/
theorem c6_bulk_positional_witness :
    bulk_update bulkRespW bulkDocsW
      = some (List.zipWith bulkSpecAssign (bulkDocsW.map stripNewRev) bulkRespW) :=
  (c6_bulk_positional bulkDocsW bulkRespW rfl (by decide)).1

/-- C7.  Every error `deserialize` raises is the field-naming wrapper: it
carries the name of a schema field whose present raw value failed to
convert, with that conversion's original exception preserved as the cause;
conversely, whenever some present field's conversion fails, `deserialize`
does raise such a wrapped error — failures are never swallowed. -/
theorem c7_field_errors (fs : List (String × Dflt × Ty)) (data : List (PyVal × PyVal)) :
    (∀ e, deserialize fs data = .error e →
        ∃ n c, e = .fieldError n c
          ∧ ∃ d t raw, (n, d, t) ∈ fs ∧ pyLookup data n = some raw
              ∧ deserialize_value t raw = .error c)
    ∧ (∀ n d t raw c, (n, d, t) ∈ fs → pyLookup data n = some raw →
        deserialize_value t raw = .error c →
        ∃ n' c', deserialize fs data = .error (.fieldError n' c')) := by
  constructor
  · intro e he
    exact desFields_error_shape fs data e (deserialize_error_to_desFields fs data e he)
  · intro n d t raw c hmem hlk hconv
    obtain ⟨e, he⟩ := desFields_error_of_field_fails fs data n d t raw c hmem hlk hconv
    obtain ⟨n', c', rfl, _⟩ := desFields_error_shape fs data e he
    exact ⟨n', c', by simp [deserialize, he, Except.map]⟩

/-- C7 (witness): a list-typed field holding an int makes `deserialize`
raise the wrapper naming that field. -/
theorem c7_field_errors_witness :
    ∃ n c, deserialize [("x", Dflt.missing, Ty.tList Ty.tInt)]
        [(PyVal.vstr "x", PyVal.vint 5)] = .error (.fieldError n c) :=
  (c7_field_errors [("x", Dflt.missing, Ty.tList Ty.tInt)]
      [(PyVal.vstr "x", PyVal.vint 5)]).2 "x" .missing (Ty.tList Ty.tInt) (PyVal.vint 5)
    (.typeError "Expected list for field, got int") (by simp) rfl rfl

/-- C8 (counterexample).  A transport failure raised by `session.post`
itself — the call sits outside the `try` — propagates out of the generator
unlogged, contradicting the claim that every transport failure in a poll
cycle is logged and never propagated. -/
theorem c8_post_failure_propagates :
    (changesRun (fun _ => Poll.postRaise "connection reset") 1).status
      = RunStatus.raised "connection reset"
    ∧ (changesRun (fun _ => Poll.postRaise "connection reset") 1).log = [] :=
  ⟨rfl, rfl⟩

/-- C8 (amended).  At the first cycle that fails: a failure raised while
parsing or iterating the poll response is caught and logged, the produced
sequence ends, and no later cycle is polled (no reconnection); a failure
raised by issuing the poll request itself ends the sequence by propagating
to the consumer as a raised error, without logging — and likewise without
reconnection. -/
theorem c8_feed_termination (polls : Nat → Poll) (k : Nat)
    (hfirst : ∀ j, j < k → ∃ ds, polls j = .ok ds) :
    (∀ ds e, polls k = .parseFail ds e →
        (changesRun polls (k + 1)).status = .ended
        ∧ (changesRun polls (k + 1)).log = [e]
        ∧ ∀ n, k + 1 ≤ n → changesRun polls n = changesRun polls (k + 1))
    ∧ (∀ e, polls k = .postRaise e →
        (changesRun polls (k + 1)).status = .raised e
        ∧ (changesRun polls (k + 1)).log = []
        ∧ ∀ n, k + 1 ≤ n → changesRun polls n = changesRun polls (k + 1)) := by
  obtain ⟨hst, hlog⟩ := changesRun_ok_prefix polls k hfirst
  constructor
  · intro ds e hk
    have h1 : (changesRun polls (k + 1)).status = .ended
        ∧ (changesRun polls (k + 1)).log = [e] := by
      constructor <;> simp [changesRun, hst, hk, hlog]
    exact ⟨h1.1, h1.2, fun n hn =>
      changesRun_stable polls (k + 1) (by rw [h1.1]; intro hc; cases hc) n hn⟩
  · intro e hk
    have h1 : (changesRun polls (k + 1)).status = .raised e
        ∧ (changesRun polls (k + 1)).log = [] := by
      constructor <;> simp [changesRun, hst, hk, hlog]
    exact ⟨h1.1, h1.2, fun n hn =>
      changesRun_stable polls (k + 1) (by rw [h1.1]; intro hc; cases hc) n hn⟩

/-- C8 (witness): a feed whose second cycle fails while parsing ends there,
logs the failure once, and is unchanged by any number of further steps. -/
theorem c8_feed_termination_witness :
    (changesRun pollsW 2).status = RunStatus.ended
    ∧ (changesRun pollsW 2).log = ["bad json"]
    ∧ changesRun pollsW 7 = changesRun pollsW 2 := by
  have h := (c8_feed_termination pollsW 1 (fun j hj => by
      have hj0 : j = 0 := by omega
      subst hj0
      exact ⟨[[("_id", Val.str "c")]], rfl⟩)).1 [] "bad json" rfl
  exact ⟨h.1, h.2.1, h.2.2 7 (by omega)⟩

/-- C9 (counterexample).  A null raw value for a mapping-kind field does
not fail: the global null short-circuit returns null before the mapping
check, contradicting the claim that deserialization fails whenever the raw
value is not a mapping. -/
theorem c9_null_map_value_not_error :
    deserialize_value (.tDict .tStr .tInt) .vnone = .ok .vnone
    ∧ ∀ msg, deserialize_value (.tDict .tStr .tInt) .vnone ≠ .error (.typeError msg) :=
  ⟨rfl, fun _ h => nomatch h⟩

/-- C9 (amended).  Serialization of a mapping value recurses over the
values only, passing every key through unchanged; deserialization of a
mapping-kind field converts both keys and values through the type-directed
pipeline, and fails with a type error whenever the raw value is neither
null nor a mapping — a null raw value short-circuits to null instead of
failing. -/
theorem c9_mapping_asymmetry (kt vt : Ty) :
    (∀ es, serialize_value (.vdict es)
        = .vdict (es.map (fun p => (p.1, serialize_value p.2))))
    ∧ (∀ v, v ≠ .vnone → (∀ es, v ≠ .vdict es) →
        ∃ msg, deserialize_value (.tDict kt vt) v = .error (.typeError msg))
    ∧ (∀ k v es k' v' es', deserialize_value kt k = .ok k' →
        deserialize_value vt v = .ok v' → desPairs kt vt es = .ok es' →
        deserialize_value (.tDict kt vt) (.vdict ((k, v) :: es))
          = .ok (.vdict ((k', v') :: es')))
    ∧ deserialize_value (.tDict kt vt) .vnone = .ok .vnone := by
  refine ⟨?_, ?_, ?_, rfl⟩
  · intro es
    show PyVal.vdict (serPairs es) = _
    rw [serPairs_eq_map]
  · intro v hn hd
    cases v with
    | vnone => exact absurd rfl hn
    | vdict es => exact absurd rfl (hd es)
    | vint n => exact ⟨_, rfl⟩
    | vfloat q => exact ⟨_, rfl⟩
    | vstr s => exact ⟨_, rfl⟩
    | vbool b => exact ⟨_, rfl⟩
    | vdec s => exact ⟨_, rfl⟩
    | vdt s => exact ⟨_, rfl⟩
    | vlist xs => exact ⟨_, rfl⟩
    | vinst fs => exact ⟨_, rfl⟩
  · intro k v es k' v' es' hk hv hes
    simp only [desPairs] at hes
    show Except.map PyVal.vdict
        (exPairs (deserialize_value kt) (deserialize_value vt) ((k, v) :: es)) = _
    simp [exPairs, hk, hv, hes, Except.map]

/-- C9 (witness): a one-entry string-keyed map deserializes with both the
key and the value converted. -/
theorem c9_mapping_asymmetry_witness :
    deserialize_value (.tDict .tStr .tInt) (.vdict [(.vstr "k", .vint 3)])
      = .ok (.vdict [(.vstr "k", .vint 3)]) :=
  (c9_mapping_asymmetry Ty.tStr Ty.tInt).2.2.1 (.vstr "k") (.vint 3) [] (.vstr "k")
    (.vint 3) [] rfl rfl rfl

/-- C10.  For an instance whose serialized document carries a string
identifier (as the uuid default factory guarantees): when `Db.put` reports
failure by returning `None`, `Orm.save` raises (subscripting `None`) rather
than returning; when `Db.put` itself raises, `Orm.save` propagates; and
whenever `Orm.save` returns the instance, the write succeeded and the
instance's identifier and revision equal those of the document now stored
under that identifier. -/
theorem c10_save_raises_or_reflects_store (st : Store) (doc : Doc) (docId : String)
    (hid : docGet doc "_id" = some (.str docId))
    (hnd : (doc.map Prod.fst).Nodup) :
    ((dbPut couchBackend st doc).res = .absent → (ormSave couchBackend st doc).2 = .error)
    ∧ ((dbPut couchBackend st doc).res = .keyError → (ormSave couchBackend st doc).2 = .error)
    ∧ (∀ i r, (ormSave couchBackend st doc).2 = .saved i r →
        i = .str docId
        ∧ ∃ stored, ((ormSave couchBackend st doc).1).lookup docId = some stored
            ∧ docGet stored "_id" = some i ∧ docGet stored "_rev" = some r) := by
  refine ⟨fun h => by simp [ormSave, h], fun h => by simp [ormSave, h], ?_⟩
  intro i r hs
  cases hres : (dbPut couchBackend st doc).res with
  | absent => simp [ormSave, hres] at hs
  | keyError => simp [ormSave, hres] at hs
  | ret d =>
    obtain ⟨rv, stored, hlk, hsid, hsrev, hdid, hdrev⟩ :=
      couch_dbPut_ret st doc docId hid hnd d hres
    have hsave : (ormSave couchBackend st doc)
        = ((dbPut couchBackend st doc).state, .saved (.str docId) (.str rv)) := by
      simp [ormSave, hres, hdid, hdrev]
    rw [hsave] at hs
    obtain ⟨rfl, rfl⟩ : i = Val.str docId ∧ r = Val.str rv := by
      have hinj := hs
      simp at hinj
      exact ⟨hinj.1.symm, hinj.2.symm⟩
    refine ⟨rfl, stored, ?_, hsid, hsrev⟩
    rw [hsave]
    exact hlk

/-- C10 (witness): the first save of an instance against an empty store
stores the document and reflects its identifier and fresh revision onto
the instance. -/
theorem c10_save_witness :
    Val.str "w1" = Val.str "w1"
    ∧ ∃ stored, ((ormSave couchBackend c10Store c10Doc).1).lookup "w1" = some stored
        ∧ docGet stored "_id" = some (Val.str "w1")
        ∧ docGet stored "_rev" = some (Val.str "0-r") :=
  (c10_save_raises_or_reflects_store c10Store c10Doc "w1" rfl (by decide)).2.2
    (Val.str "w1") (Val.str "0-r") rfl
